import Mathlib

set_option autoImplicit false

namespace HtmxRcon

/-! Shallow embedding of the htmx-rcon repository.

Buffers are modelled as lists of bytes (naturals below 256).  JS signed
32-bit little-endian reads and writes are modelled with explicit
arithmetic modulo 2 ^ 32.  Strings are modelled as lists of characters.
Stateful objects (the two RCON clients and the bridge session) are
modelled by explicit state passing: each event handler becomes a function
from the prior state (plus the incoming datum) to the next state together
with the list of externally visible events it produces. -/

/-- Two's-complement image of a JS number written with `writeInt32LE`. -/
def u32 (x : Int) : Nat := (x.emod 4294967296).toNat

/-- Little-endian byte serialisation of a 32-bit unsigned value. -/
def le32 (n : Nat) : List Nat := [n % 256, n / 256 % 256, n / 65536 % 256, n / 16777216 % 256]

/-- `buf.readInt32LE(off)`: little-endian signed 32-bit read.  The callers in
`decodePacket` only read in bounds, where the `getD` defaults are irrelevant. -/
def readInt32LE (buf : List Nat) (off : Nat) : Int :=
  let n := buf.getD off 0 + 256 * buf.getD (off + 1) 0 + 65536 * buf.getD (off + 2) 0 +
    16777216 * buf.getD (off + 3) 0
  if n < 2147483648 then (n : Int) else (n : Int) - 4294967296

/-- `buf.slice(start, end)` for Node buffers: negative indices count from the
end; both endpoints are clamped to `[0, length]`. -/
def bufSlice (buf : List Nat) (start stop : Int) : List Nat :=
  let len : Int := buf.length
  let s : Int := if start < 0 then (if len + start < 0 then 0 else len + start)
    else (if start < len then start else len)
  let e : Int := if stop < 0 then (if len + stop < 0 then 0 else len + stop)
    else (if stop < len then stop else len)
  (buf.drop s.toNat).take (e - s).toNat

/-- `encodePacket(id, type, body)` from `lib/rcon.js`: size field, id, type,
body bytes and the two trailing null bytes.  `size = 4 + 4 + len + 1 + 1`. -/
def encodePacket (id ty : Int) (body : List Nat) : List Nat :=
  le32 (u32 ((4 + 4 + (body.length : Int) + 1 + 1))) ++ le32 (u32 id) ++ le32 (u32 ty) ++
    body ++ [0, 0]

/-- Result of `decodePacket(buf)`.  `incomplete` is the JS `null` return;
`rangeError` models the exception Node throws when `readInt32LE` reads past
the end of the buffer (possible because the size check only guards
`4 + size` bytes, which may be fewer than the 12 header bytes). -/
inductive DecodeResult where
  | incomplete : DecodeResult
  | rangeError : DecodeResult
  | frame (id ty : Int) (body : List Nat) (totalLength : Int) : DecodeResult
  deriving DecidableEq, Repr

/-- `decodePacket(buf)` from `lib/rcon.js`: `size` is the signed little-endian
read at offset 0 and `totalLength = 4 + size`. -/
def decodePacket (buf : List Nat) : DecodeResult :=
  if buf.length < 4 then .incomplete
  else if (buf.length : Int) < 4 + readInt32LE buf 0 then .incomplete
  else if buf.length < 12 then .rangeError
  else .frame (readInt32LE buf 4) (readInt32LE buf 8)
    (bufSlice buf 12 (4 + readInt32LE buf 0 - 2)) (4 + readInt32LE buf 0)

theorem le32_u32_readInt32LE (x : Int) (rest : List Nat)
    (h1 : -2147483648 ≤ x) (h2 : x < 2147483648) :
    readInt32LE (le32 (u32 x) ++ rest) 0 = x := by
  have h0 : 0 ≤ x.emod 4294967296 := Int.emod_nonneg x (by norm_num)
  have hlt : x.emod 4294967296 < 4294967296 := Int.emod_lt_of_pos x (by norm_num)
  have hk : x.emod 4294967296 = x - 4294967296 * (x / 4294967296) := Int.emod_def x _
  have hval : (u32 x : Int) = x.emod 4294967296 := by
    unfold u32; rw [Int.toNat_of_nonneg h0]
  have hnat : u32 x < 4294967296 := by omega
  simp only [le32, readInt32LE, List.cons_append, List.getD_cons_zero, List.getD_cons_succ]
  have hrec : u32 x % 256 + 256 * (u32 x / 256 % 256) + 65536 * (u32 x / 65536 % 256) +
      16777216 * (u32 x / 16777216 % 256) = u32 x := by omega
  rw [hrec]
  split <;> omega

theorem readInt32LE_le32_shift (a : Nat) (rest : List Nat) (off : Nat) :
    readInt32LE (le32 a ++ rest) (off + 4) = readInt32LE rest off := by
  have g : ∀ (w x y z : Nat) (l : List Nat) (k : Nat),
      (w :: x :: y :: z :: l).getD (k + 4) 0 = l.getD k 0 := by
    intro w x y z l k
    show (w :: x :: y :: z :: l).getD (k + 1 + 1 + 1 + 1) 0 = l.getD k 0
    simp [List.getD_cons_succ]
  simp only [readInt32LE, le32, List.cons_append, List.nil_append]
  rw [g, g, g, g]

theorem encodePacket_length (id ty : Int) (body : List Nat) :
    (encodePacket id ty body).length = body.length + 14 := by
  simp [encodePacket, le32]

/-- The size field written by `encodePacket` reads back as `len(body) + 10`. -/
theorem encodePacket_sizeField (id ty : Int) (body : List Nat)
    (hlen : body.length + 10 < 2147483648) :
    readInt32LE (encodePacket id ty body) 0 = (body.length : Int) + 10 := by
  have ea : encodePacket id ty body =
      le32 (u32 ((4 + 4 + (body.length : Int) + 1 + 1))) ++
        (le32 (u32 id) ++ (le32 (u32 ty) ++ (body ++ [0, 0]))) := by
    simp [encodePacket, List.append_assoc]
  rw [ea, le32_u32_readInt32LE _ _ (by omega) (by omega)]
  ring

/-- Decoding the bytes produced by `encodePacket` recovers the id, the kind
and the body, and consumes exactly the encoded length. -/
theorem decodePacket_encodePacket (id ty : Int) (body : List Nat)
    (hid1 : -2147483648 ≤ id) (hid2 : id < 2147483648)
    (hty1 : -2147483648 ≤ ty) (hty2 : ty < 2147483648)
    (hlen : body.length + 10 < 2147483648) :
    decodePacket (encodePacket id ty body) =
      .frame id ty body ((body.length : Int) + 14) := by
  have ea : encodePacket id ty body =
      le32 (u32 ((4 + 4 + (body.length : Int) + 1 + 1))) ++
        (le32 (u32 id) ++ (le32 (u32 ty) ++ (body ++ [0, 0]))) := by
    simp [encodePacket, List.append_assoc]
  have hsize := encodePacket_sizeField id ty body hlen
  have hid : readInt32LE (encodePacket id ty body) 4 = id := by
    rw [ea]
    have := readInt32LE_le32_shift (u32 ((4 + 4 + (body.length : Int) + 1 + 1)))
      (le32 (u32 id) ++ (le32 (u32 ty) ++ (body ++ [0, 0]))) 0
    simpa using this.trans (le32_u32_readInt32LE id _ hid1 hid2)
  have hty : readInt32LE (encodePacket id ty body) 8 = ty := by
    rw [ea]
    have h1 := readInt32LE_le32_shift (u32 ((4 + 4 + (body.length : Int) + 1 + 1)))
      (le32 (u32 id) ++ (le32 (u32 ty) ++ (body ++ [0, 0]))) 4
    have h2 := readInt32LE_le32_shift (u32 id) (le32 (u32 ty) ++ (body ++ [0, 0])) 0
    have h3 := le32_u32_readInt32LE ty (body ++ [0, 0]) hty1 hty2
    simpa using (h1.trans h2).trans h3
  have hlen14 := encodePacket_length id ty body
  have hslice : bufSlice (encodePacket id ty body) 12 ((body.length : Int) + 12) = body := by
    simp only [bufSlice, hlen14]
    split_ifs with h1 h2 h3 h4 h5 h6 h7 h8 <;> try (exfalso; omega)
    have ht : (((body.length : Int) + 12) - 12).toNat = body.length := by omega
    rw [ht, show ((12 : Int)).toNat = 12 from rfl]
    have ea2 : encodePacket id ty body =
        (le32 (u32 ((4 + 4 + (body.length : Int) + 1 + 1))) ++ le32 (u32 id) ++
          le32 (u32 ty)) ++ (body ++ [0, 0]) := by
      simp [encodePacket, List.append_assoc]
    rw [ea2, show (12 : Nat) =
      (le32 (u32 ((4 + 4 + (body.length : Int) + 1 + 1))) ++ le32 (u32 id) ++
        le32 (u32 ty)).length by simp [le32]]
    rw [List.drop_left, show body.length = body.length from rfl]
    exact List.take_left body [0, 0]
  rw [decodePacket]
  rw [if_neg (by omega), hsize, if_neg (by omega), if_neg (by omega)]
  rw [hid, hty]
  have h12 : (4 : Int) + ((body.length : Int) + 10) - 2 = (body.length : Int) + 12 := by ring
  rw [h12, hslice]
  congr 1
  ring

/-- C2: for every int32 id, every kind in `{0, 2, 3}` and every body (a list
of UTF-8 bytes, up to the length bound at which `writeInt32LE` stays in
range), decoding the bytes produced by `encodePacket id kind body` yields
back exactly `(id, kind, body)` with the number of bytes consumed
(`totalLength`) equal to the encoded length, and the encoded size field
reads back as `4 + 4 + len(body) + 2`. -/
theorem c2_encode_decode_roundtrip (id ty : Int) (body : List Nat)
    (hid : -2147483648 ≤ id ∧ id < 2147483648)
    (hty : ty = 0 ∨ ty = 2 ∨ ty = 3)
    (_hbytes : ∀ b ∈ body, b < 256)
    (hlen : body.length + 10 < 2147483648) :
    decodePacket (encodePacket id ty body) =
      .frame id ty body (((encodePacket id ty body).length : Int))
    ∧ readInt32LE (encodePacket id ty body) 0 = 4 + 4 + (body.length : Int) + 2 := by
  have hty1 : -2147483648 ≤ ty := by rcases hty with h | h | h <;> omega
  have hty2 : ty < 2147483648 := by rcases hty with h | h | h <;> omega
  refine ⟨?_, ?_⟩
  · rw [encodePacket_length, decodePacket_encodePacket id ty body hid.1 hid.2 hty1 hty2 hlen]
    congr 1
  · rw [encodePacket_sizeField id ty body hlen]
    ring

/-- Witness for C2 at a concrete input: id 5, kind 2, body the two bytes of
the ASCII string consisting of the letters h and i. -/
theorem c2_encode_decode_roundtrip_witness :
    decodePacket (encodePacket 5 2 [104, 105]) =
      .frame 5 2 [104, 105] (((encodePacket 5 2 [104, 105]).length : Int))
    ∧ readInt32LE (encodePacket 5 2 [104, 105]) 0 =
      4 + 4 + (([104, 105] : List Nat).length : Int) + 2 :=
  c2_encode_decode_roundtrip 5 2 [104, 105] (by norm_num) (by norm_num)
    (by decide) (by norm_num)

theorem bufSlice_empty (buf : List Nat) (start stop : Int)
    (h0 : 0 ≤ stop) (h1 : stop ≤ start) :
    bufSlice buf start stop = [] := by
  simp only [bufSlice]
  split_ifs <;>
    (rw [← List.length_eq_zero, List.length_take, List.length_drop]; omega)

/-- C6 counterexample: a 12-byte buffer whose declared size field is 6
(below the claimed minimum of 10) is not rejected: `decodePacket` returns a
frame (with id 1, kind 7, empty body and totalLength 10) instead of failing
with a malformed-frame error.  No code path of `decodePacket` produces a
`MalformedFrame` failure. -/
theorem c6_counterexample :
    decodePacket [6, 0, 0, 0, 1, 0, 0, 0, 7, 0, 0, 0] =
      DecodeResult.frame 1 7 [] 10 ∧ (6 : Int) < 10 := by
  constructor
  · decide
  · norm_num

/-- C6 amended: `decodePacket` returns None (`incomplete`) when the buffer
has fewer than 4 bytes or fewer than `4 + size` bytes; it performs no
minimum-size validation, so a nonnegative declared size below 10 is not
rejected: whenever at least 12 bytes are available the decoder returns a
frame whose body is empty (and with fewer than 12 bytes available the header
reads throw a range error rather than a malformed-frame error). -/
theorem c6_decode_no_malformed_check (buf : List Nat) :
    (buf.length < 4 → decodePacket buf = .incomplete)
    ∧ (4 ≤ buf.length → (buf.length : Int) < 4 + readInt32LE buf 0 →
        decodePacket buf = .incomplete)
    ∧ (4 ≤ buf.length → buf.length < 12 →
        4 + readInt32LE buf 0 ≤ (buf.length : Int) → decodePacket buf = .rangeError)
    ∧ (12 ≤ buf.length → 0 ≤ readInt32LE buf 0 → readInt32LE buf 0 < 10 →
        4 + readInt32LE buf 0 ≤ (buf.length : Int) →
        decodePacket buf = .frame (readInt32LE buf 4) (readInt32LE buf 8) []
          (4 + readInt32LE buf 0)) := by
  refine ⟨fun h => ?_, fun h4 hlt => ?_, fun h4 h12 hle => ?_, fun h12 hs0 hs10 hle => ?_⟩
  · rw [decodePacket, if_pos h]
  · rw [decodePacket, if_neg (by omega), if_pos hlt]
  · rw [decodePacket, if_neg (by omega), if_neg (by omega), if_pos h12]
  · rw [decodePacket, if_neg (by omega), if_neg (by omega), if_neg (by omega),
      bufSlice_empty buf 12 (4 + readInt32LE buf 0 - 2) (by omega) (by omega)]

/-- Witness for C6 at concrete inputs: a 2-byte buffer is incomplete, a
6-byte buffer with declared size 20 is incomplete, an 8-byte buffer with
declared size 4 hits the out-of-bounds header read, and a 13-byte buffer
with declared size 9 decodes to a frame with an empty body. -/
theorem c6_decode_no_malformed_check_witness :
    decodePacket [1, 2] = .incomplete
    ∧ decodePacket [20, 0, 0, 0, 9, 9] = .incomplete
    ∧ decodePacket [4, 0, 0, 0, 9, 9, 9, 9] = .rangeError
    ∧ decodePacket [9, 0, 0, 0, 3, 0, 0, 0, 5, 0, 0, 0, 77] =
        .frame (readInt32LE [9, 0, 0, 0, 3, 0, 0, 0, 5, 0, 0, 0, 77] 4)
          (readInt32LE [9, 0, 0, 0, 3, 0, 0, 0, 5, 0, 0, 0, 77] 8) []
          (4 + readInt32LE [9, 0, 0, 0, 3, 0, 0, 0, 5, 0, 0, 0, 77] 0) :=
  ⟨(c6_decode_no_malformed_check [1, 2]).1 (by norm_num),
    (c6_decode_no_malformed_check [20, 0, 0, 0, 9, 9]).2.1 (by norm_num) (by decide),
    (c6_decode_no_malformed_check [4, 0, 0, 0, 9, 9, 9, 9]).2.2.1 (by norm_num)
      (by norm_num) (by decide),
    (c6_decode_no_malformed_check [9, 0, 0, 0, 3, 0, 0, 0, 5, 0, 0, 0, 77]).2.2.2
      (by norm_num) (by decide) (by decide) (by decide)⟩

/-! ### Binary RCON client (`RconConnection` in `lib/rcon.js`)

The pending table (`this._pending`, a JS `Map` from request id to an entry
holding the accumulated body and the promise resolvers) is modelled as an
insertion-ordered association list, which matches JS `Map` iteration order:
`set` of a fresh key appends, `get`/`delete` address the unique entry with
that key, and in-place mutation of an entry keeps its position. -/

def SERVERDATA_AUTH : Int := 3

def SERVERDATA_AUTH_RESPONSE : Int := 2

def SERVERDATA_EXECCOMMAND : Int := 2

def SERVERDATA_RESPONSE_VALUE : Int := 0

def SENTINEL_ID : Int := 9999

/-- JS `Map.has`. -/
def mapHas {α : Type} (k : Int) : List (Int × α) → Bool
  | [] => false
  | (k2, _) :: rest => if k2 = k then true else mapHas k rest

/-- JS `Map.get` (keys are unique in a `Map`, so the first hit is the entry). -/
def mapGet {α : Type} (k : Int) : List (Int × α) → Option α
  | [] => none
  | (k2, v) :: rest => if k2 = k then some v else mapGet k rest

/-- In-place mutation of the entry under key `k` (position preserved). -/
def mapUpdate {α : Type} (k : Int) (f : α → α) : List (Int × α) → List (Int × α)
  | [] => []
  | (k2, v) :: rest => if k2 = k then (k2, f v) :: rest else (k2, v) :: mapUpdate k f rest

/-- JS `Map.delete`. -/
def mapErase {α : Type} (k : Int) : List (Int × α) → List (Int × α)
  | [] => []
  | (k2, v) :: rest => if k2 = k then rest else (k2, v) :: mapErase k rest

/-- JS `Map.set`: update in place when the key exists, append otherwise. -/
def mapSet {α : Type} (k : Int) (v : α) (l : List (Int × α)) : List (Int × α) :=
  if mapHas k l then mapUpdate k (fun _ => v) l else l ++ [(k, v)]

/-- A decoded packet as consumed by `_handlePacket` (body as a string). -/
structure Pkt where
  id : Int
  type : Int
  body : List Char
  deriving DecidableEq, Repr

/-- How a pending promise is settled. -/
inductive Settle where
  | resolved (v : List Char)
  | rejected (e : List Char)
  deriving DecidableEq, Repr

/-- Externally visible effects of the binary client's packet handler. -/
inductive BEvent where
  | authenticatedEv
  | authFailedEv
  | authResolve
  | authReject (e : List Char)
  | responseEv (id : Int) (body : List Char)
  | settle (id : Int) (s : Settle)
  deriving DecidableEq, Repr

/-- The mutable fields of `RconConnection` relevant to packet handling:
`_pendingAuth` (as a flag), `_authenticated` and `_pending`. -/
structure RconConnection where
  pendingAuth : Bool
  authenticated : Bool
  pending : List (Int × List Char)
  deriving DecidableEq, Repr

/-- `RconConnection._handlePacket(pkt)` from `lib/rcon.js`.  On auth failure
the code emits auth-failed, rejects the connect promise and calls
`destroy()`, which clears the pending table. -/
def handlePacket (s : RconConnection) (pkt : Pkt) : RconConnection × List BEvent :=
  if s.pendingAuth = true ∧ pkt.type = SERVERDATA_AUTH_RESPONSE then
    if pkt.id = -1 then
      (⟨false, false, []⟩,
        [.authFailedEv, .authReject ("RCON authentication failed — bad password".toList)])
    else
      ({ s with pendingAuth := false, authenticated := true }, [.authenticatedEv, .authResolve])
  else if s.pendingAuth = true ∧ pkt.type = SERVERDATA_RESPONSE_VALUE ∧
      (pkt.id = -1 ∨ pkt.id = 0) then
    (s, [])
  else if pkt.id = SENTINEL_ID then
    match s.pending with
    | [] => (s, [])
    | (id, entry) :: rest =>
      ({ s with pending := rest }, [.responseEv id entry, .settle id (.resolved entry)])
  else if pkt.type = SERVERDATA_RESPONSE_VALUE ∧ mapHas pkt.id s.pending = true then
    ({ s with pending := mapUpdate pkt.id (fun b => b ++ pkt.body) s.pending }, [])
  else (s, [])

/-- Frames drained from the receive buffer are dispatched in arrival order. -/
def processPackets (s : RconConnection) : List Pkt → RconConnection × List BEvent
  | [] => (s, [])
  | p :: ps =>
    let r := handlePacket s p
    let r2 := processPackets r.1 ps
    (r2.1, r.2 ++ r2.2)

/-- The pending-table effect of `exec`: a fresh entry with empty accumulated
body (`this._pending.set(id, { body: '', resolve, reject })`). -/
def execPending (s : RconConnection) (id : Int) : RconConnection :=
  { s with pending := mapSet id [] s.pending }

/-- `RconConnection._nextId`: the id cycle `1..9000`. -/
def nextId (requestId : Int) : Int := requestId.emod 9000 + 1

/-- The per-command timeout callback inside `RconConnection.exec`: if the id
is still pending, drop it and resolve with the accumulated body, or with the
placeholder when nothing was accumulated (`entry.body || '(no response)'`). -/
def execTimeout (s : RconConnection) (id : Int) : RconConnection × Option Settle :=
  match mapGet id s.pending with
  | some entry =>
    ({ s with pending := mapErase id s.pending },
      some (.resolved (if entry = [] then "(no response)".toList else entry)))
  | none => (s, none)

/-- `RconConnection.destroy()`: clears the pending table (settling nothing). -/
def rconDestroy (_s : RconConnection) : RconConnection × List BEvent :=
  (⟨false, false, []⟩, [])

/-- Concatenation, in arrival order, of the bodies of the `RESPONSE_VALUE`
frames whose id matches `i`. -/
def responseConcat (i : Int) : List Pkt → List Char
  | [] => []
  | p :: ps =>
    (if p.type = SERVERDATA_RESPONSE_VALUE ∧ p.id = i then p.body else []) ++
      responseConcat i ps

theorem processPackets_append (s : RconConnection) (xs ys : List Pkt) :
    processPackets s (xs ++ ys) =
      ((processPackets (processPackets s xs).1 ys).1,
        (processPackets s xs).2 ++ (processPackets (processPackets s xs).1 ys).2) := by
  induction xs generalizing s with
  | nil => simp [processPackets]
  | cons p xs ih => simp [processPackets, ih, List.append_assoc]

theorem processPackets_single_pending (i : Int) (b : List Char) (ps : List Pkt)
    (hs : ∀ p ∈ ps, p.id ≠ SENTINEL_ID) :
    processPackets ⟨false, true, [(i, b)]⟩ ps =
      (⟨false, true, [(i, b ++ responseConcat i ps)]⟩, []) := by
  induction ps generalizing b with
  | nil => simp [processPackets, responseConcat]
  | cons p ps ih =>
    have hp : p.id ≠ SENTINEL_ID := hs p (by simp)
    have hs2 : ∀ q ∈ ps, q.id ≠ SENTINEL_ID := fun q hq => hs q (by simp [hq])
    by_cases hm : p.type = SERVERDATA_RESPONSE_VALUE ∧ p.id = i
    · simp only [processPackets, handlePacket, responseConcat]
      rw [if_neg (by simp), if_neg (by simp), if_neg hp,
        if_pos ⟨hm.1, by simp [mapHas, hm.2]⟩]
      have hmu : mapUpdate p.id (fun x => x ++ p.body) [(i, b)] = [(i, b ++ p.body)] := by
        simp [mapUpdate, hm.2]
      rw [hmu, ih (b ++ p.body) hs2]
      simp [hm, List.append_assoc]
    · simp only [processPackets, handlePacket, responseConcat]
      rw [if_neg (by simp), if_neg (by simp), if_neg hp, if_neg (by
        rintro ⟨h0, hhas⟩
        apply hm
        refine ⟨h0, ?_⟩
        by_contra hne
        simp [mapHas, show i ≠ p.id from fun h => hne h.symm] at hhas)]
      rw [ih b hs2]
      simp [hm]

/-- C1: with exec calls serialized (a single pending command), `exec`
resolves with the concatenation, in arrival order, of the bodies of every
`RESPONSE_VALUE` frame whose id matches the command's id arriving between
issuance and the next frame bearing the sentinel id 9999; and when a
sentinel frame arrives with several commands pending, the handler resolves
the oldest pending entry with its accumulated body. -/
theorem c1_exec_sentinel_resolution :
    (∀ (i : Int) (ps : List Pkt) (q : Pkt),
      1 ≤ i → i ≤ 9000 → (∀ p ∈ ps, p.id ≠ SENTINEL_ID) → q.id = SENTINEL_ID →
      processPackets (execPending ⟨false, true, []⟩ i) (ps ++ [q]) =
        (⟨false, true, []⟩,
          [.responseEv i (responseConcat i ps),
            .settle i (.resolved (responseConcat i ps))]))
    ∧ (∀ (q : Pkt) (a : Bool) (j : Int) (b : List Char)
        (rest : List (Int × List Char)), q.id = SENTINEL_ID →
      handlePacket ⟨false, a, (j, b) :: rest⟩ q =
        (⟨false, a, rest⟩, [.responseEv j b, .settle j (.resolved b)])) := by
  constructor
  · intro i ps q hi1 hi2 hs hq
    have hexec : execPending ⟨false, true, []⟩ i =
        (⟨false, true, [(i, [])]⟩ : RconConnection) := by
      simp [execPending, mapSet, mapHas]
    rw [hexec, processPackets_append, processPackets_single_pending i [] ps hs]
    simp only [processPackets, handlePacket]
    rw [if_neg (by simp), if_neg (by simp), if_pos hq]
    simp [processPackets]
  · intro q a j b rest hq
    simp only [handlePacket]
    rw [if_neg (by simp), if_neg (by simp), if_pos hq]

/-- Witness for C1: a command with id 1 receiving two matching response
frames, one interleaved frame for another id, then the sentinel echo; and a
sentinel arriving while ids 2 and 3 are pending resolves id 2 (the oldest). -/
theorem c1_exec_sentinel_resolution_witness :
    processPackets (execPending ⟨false, true, []⟩ 1)
        ([⟨1, 0, "ab".toList⟩, ⟨2, 0, "zz".toList⟩, ⟨1, 0, "cd".toList⟩] ++
          [⟨9999, 0, []⟩]) =
      (⟨false, true, []⟩,
        [.responseEv 1 (responseConcat 1
            [⟨1, 0, "ab".toList⟩, ⟨2, 0, "zz".toList⟩, ⟨1, 0, "cd".toList⟩]),
          .settle 1 (.resolved (responseConcat 1
            [⟨1, 0, "ab".toList⟩, ⟨2, 0, "zz".toList⟩, ⟨1, 0, "cd".toList⟩]))])
    ∧ handlePacket ⟨false, true, [(2, "x".toList), (3, "y".toList)]⟩ ⟨9999, 0, []⟩ =
      (⟨false, true, [(3, "y".toList)]⟩,
        [.responseEv 2 "x".toList, .settle 2 (.resolved "x".toList)]) :=
  ⟨c1_exec_sentinel_resolution.1 1 _ _ (by norm_num) (by norm_num) (by decide) (by decide),
    c1_exec_sentinel_resolution.2 ⟨9999, 0, []⟩ true 2 "x".toList
      [(3, "y".toList)] (by decide)⟩

/-! ### JSON RCON client (`RconWebSocket` in `lib/rcon-ws.js`)

The pending table maps ids to promise resolvers only, so it is modelled as
an insertion-ordered list of ids. -/

/-- JS `x || d` for an optional string field: a missing field and the empty
string are both falsy. -/
def jsOr (o : Option (List Char)) (d : List Char) : List Char :=
  match o with
  | none => d
  | some s => if s = [] then d else s

/-- An inbound JSON frame `{ Identifier, Message, Type, ... }`.  The `Type`
field is named `MsgType` here because `Type` is a Lean keyword. -/
structure WMsg where
  Identifier : Int
  Message : Option (List Char)
  MsgType : Option (List Char)
  deriving DecidableEq, Repr

/-- Externally visible effects of the JSON client's handlers. -/
inductive WEvent where
  | serverMessage (body ty : List Char)
  | responseEv (id : Int) (body : List Char)
  | closeEv
  | authFailedEv
  | connectRejected (e : List Char)
  | settle (id : Int) (s : Settle)
  deriving DecidableEq, Repr

/-- The mutable fields of `RconWebSocket`: `_authenticated`, `_ws` (kept as
a presence flag) and `_pending`. -/
structure RconWebSocket where
  authenticated : Bool
  hasWs : Bool
  pending : List Int
  deriving DecidableEq, Repr

def idHas (k : Int) : List Int → Bool
  | [] => false
  | k2 :: rest => if k2 = k then true else idHas k rest

def idErase (k : Int) : List Int → List Int
  | [] => []
  | k2 :: rest => if k2 = k then rest else k2 :: idErase k rest

/-- `RconWebSocket._handleMessage(msg)` from `lib/rcon-ws.js`. -/
def handleMessage (s : RconWebSocket) (m : WMsg) : RconWebSocket × List WEvent :=
  let body := jsOr m.Message []
  let ty := jsOr m.MsgType ("Generic".toList)
  if m.Identifier = -1 ∨ m.Identifier = 0 then
    (s, [.serverMessage body ty])
  else if idHas m.Identifier s.pending = true then
    ({ s with pending := idErase m.Identifier s.pending },
      [.responseEv m.Identifier body, .settle m.Identifier (.resolved body)])
  else
    (s, [.serverMessage body ty])

/-- The WebSocket `close` handler installed by `RconWebSocket.connect`. -/
def wsCloseHandler (s : RconWebSocket) (code : Int) : RconWebSocket × List WEvent :=
  let evs :=
    if s.authenticated = false then
      [.authFailedEv, .connectRejected (("RCON connection rejected (code ".toList) ++
        (toString code).toList ++ (") — check password".toList))]
    else [WEvent.closeEv]
  (⟨false, false, []⟩,
    evs ++ s.pending.map (fun id => .settle id (.rejected ("Connection closed".toList))))

/-- The pending-table effect of `RconWebSocket.exec`. -/
def wsExecPending (s : RconWebSocket) (id : Int) : RconWebSocket :=
  { s with pending := if idHas id s.pending = true then s.pending else s.pending ++ [id] }

/-- The per-command timeout callback inside `RconWebSocket.exec`: if the id
is still pending, drop it and resolve with the placeholder string. -/
def wsExecTimeout (s : RconWebSocket) (id : Int) : RconWebSocket × Option Settle :=
  if idHas id s.pending = true then
    ({ s with pending := idErase id s.pending },
      some (.resolved ("(no response — timed out)".toList)))
  else (s, none)

/-- `RconWebSocket.destroy()`: terminates the socket and clears the pending
table, invoking no resolver and no rejecter. -/
def wsDestroy (_s : RconWebSocket) : RconWebSocket × List WEvent :=
  (⟨false, false, []⟩, [])

/-- True of timeout results that are not rejections. -/
def notReject : Option Settle → Bool
  | some (.rejected _) => false
  | _ => true

theorem idHas_iff_mem (k : Int) (l : List Int) : idHas k l = true ↔ k ∈ l := by
  induction l with
  | nil => simp [idHas]
  | cons k2 rest ih =>
    by_cases h : k2 = k
    · simp [idHas, h]
    · simp only [idHas, if_neg h, ih, List.mem_cons]
      constructor
      · exact Or.inr
      · rintro (hk | hk)
        · exact absurd hk.symm h
        · exact hk

/-- C3 counterexample: for a binary-client command that has accumulated
nothing when the timeout fires, `exec` resolves with the placeholder string
"(no response)", not with the (empty) accumulated response body — refuting
"resolves with whatever response body has been accumulated so far" as
stated. -/
theorem c3_counterexample :
    (execTimeout ⟨false, true, [(1, [])]⟩ 1).2 =
      some (.resolved ("(no response)".toList))
    ∧ ("(no response)".toList : List Char) ≠ ([] : List Char) := by
  constructor
  · decide
  · decide

/-- C3 amended: a command whose response does not arrive before the
per-command timeout settles by resolve, never by reject: the binary client
resolves with the accumulated body when nonempty and with the placeholder
"(no response)" when nothing was accumulated, and the JSON client resolves
with the placeholder "(no response — timed out)". -/
theorem c3_timeout_resolves (s : RconConnection) (id : Int)
    (sw : RconWebSocket) (idw : Int) :
    (execTimeout s id).2 = (mapGet id s.pending).map
      (fun b => .resolved (if b = [] then "(no response)".toList else b))
    ∧ (wsExecTimeout sw idw).2 =
      (if idHas idw sw.pending = true then
        some (.resolved ("(no response — timed out)".toList)) else none)
    ∧ notReject (execTimeout s id).2 = true
    ∧ notReject (wsExecTimeout sw idw).2 = true := by
  refine ⟨?_, ?_, ?_, ?_⟩
  · cases h : mapGet id s.pending <;> simp [execTimeout, h]
  · by_cases h : idHas idw sw.pending = true <;> simp [wsExecTimeout, h]
  · cases h : mapGet id s.pending <;> simp [execTimeout, h, notReject]
  · by_cases h : idHas idw sw.pending = true <;> simp [wsExecTimeout, h, notReject]

theorem idHas_idErase_of_nodup (k : Int) (l : List Int) (h : l.Nodup) :
    idHas k (idErase k l) = false := by
  induction l with
  | nil => simp [idErase, idHas]
  | cons k2 rest ih =>
    by_cases hk : k2 = k
    · subst hk
      simp only [idErase, if_pos rfl]
      rw [← Bool.not_eq_true, idHas_iff_mem]
      exact (List.nodup_cons.mp h).1
    · simp only [idErase, if_neg hk, idHas, if_neg hk]
      exact ih (List.nodup_cons.mp h).2

/-- C4: for every inbound JSON-client message, under the invariant that all
pending ids were issued by `_nextId` (hence at least 1): an Identifier at
most 0 is emitted as a server-message event carrying body and severity and
settles nothing; an Identifier equal to a pending command's id resolves
that command with the Message field, and only the first such frame wins
(the id leaves the table, so — under key uniqueness — it no longer
matches); any other Identifier is still delivered as a server-message
event. -/
theorem c4_json_inbound_classification (s : RconWebSocket) (m : WMsg)
    (hpos : ∀ k ∈ s.pending, 1 ≤ k) :
    (m.Identifier ≤ 0 →
      handleMessage s m =
        (s, [.serverMessage (jsOr m.Message []) (jsOr m.MsgType ("Generic".toList))]))
    ∧ (idHas m.Identifier s.pending = true →
      handleMessage s m = ({ s with pending := idErase m.Identifier s.pending },
        [.responseEv m.Identifier (jsOr m.Message []),
          .settle m.Identifier (.resolved (jsOr m.Message []))]))
    ∧ (s.pending.Nodup → idHas m.Identifier s.pending = true →
      idHas m.Identifier (handleMessage s m).1.pending = false)
    ∧ (1 ≤ m.Identifier → idHas m.Identifier s.pending = false →
      handleMessage s m =
        (s, [.serverMessage (jsOr m.Message []) (jsOr m.MsgType ("Generic".toList))])) := by
  refine ⟨fun hle => ?_, fun hhas => ?_, fun hnd hhas => ?_, fun h1 hno => ?_⟩
  · by_cases hz : m.Identifier = -1 ∨ m.Identifier = 0
    · simp [handleMessage, hz]
    · have hno : idHas m.Identifier s.pending = false := by
        rw [← Bool.not_eq_true, idHas_iff_mem]
        intro hmem
        have := hpos _ hmem
        omega
      simp [handleMessage, hz, hno]
  · have hz : ¬(m.Identifier = -1 ∨ m.Identifier = 0) := by
      have := (idHas_iff_mem m.Identifier s.pending).mp hhas
      have := hpos _ this
      omega
    simp [handleMessage, hz, hhas]
  · have hz : ¬(m.Identifier = -1 ∨ m.Identifier = 0) := by
      have := (idHas_iff_mem m.Identifier s.pending).mp hhas
      have := hpos _ this
      omega
    simp only [handleMessage, if_neg hz, if_pos hhas]
    exact idHas_idErase_of_nodup _ _ hnd
  · have hz : ¬(m.Identifier = -1 ∨ m.Identifier = 0) := by omega
    simp [handleMessage, hz, hno]

/-- Witness for C4: a push with Identifier -1, a response for pending id 7,
the post-resolution absence of id 7, and an unknown id 8 delivered as a
server-message, all on the pending table holding ids 7 and 9. -/
theorem c4_json_inbound_classification_witness :
    handleMessage ⟨true, true, [7, 9]⟩ ⟨-1, some ("hi".toList), none⟩ =
      (⟨true, true, [7, 9]⟩,
        [.serverMessage ("hi".toList) ("Generic".toList)])
    ∧ handleMessage ⟨true, true, [7, 9]⟩ ⟨7, some ("ok".toList), none⟩ =
      (⟨true, true, [9]⟩,
        [.responseEv 7 ("ok".toList), .settle 7 (.resolved ("ok".toList))])
    ∧ idHas 7 (handleMessage ⟨true, true, [7, 9]⟩ ⟨7, some ("ok".toList), none⟩).1.pending
        = false
    ∧ handleMessage ⟨true, true, [7, 9]⟩ ⟨8, some ("odd".toList), none⟩ =
      (⟨true, true, [7, 9]⟩,
        [.serverMessage ("odd".toList) ("Generic".toList)]) := by
  have hpos : ∀ k ∈ ([7, 9] : List Int), 1 ≤ k := by decide
  refine ⟨?_, ?_, ?_, ?_⟩
  · have h := (c4_json_inbound_classification ⟨true, true, [7, 9]⟩
      ⟨-1, some ("hi".toList), none⟩ hpos).1 (by norm_num)
    simpa using h
  · have h := (c4_json_inbound_classification ⟨true, true, [7, 9]⟩
      ⟨7, some ("ok".toList), none⟩ hpos).2.1 (by decide)
    simpa using h
  · exact (c4_json_inbound_classification ⟨true, true, [7, 9]⟩
      ⟨7, some ("ok".toList), none⟩ hpos).2.2.1 (by decide) (by decide)
  · have h := (c4_json_inbound_classification ⟨true, true, [7, 9]⟩
      ⟨8, some ("odd".toList), none⟩ hpos).2.2.2 (by norm_num) (by decide)
    simpa using h

/-- True of the events that settle a pending command with the given id. -/
def isSettleOf (id : Int) : WEvent → Bool
  | .settle k _ => k == id
  | _ => false

/-- True of any settling event. -/
def isSettleEv : WEvent → Bool
  | .settle _ _ => true
  | _ => false

theorem settle_count (id : Int) (l : List Int) (msg : List Char) :
    ((l.map (fun k => WEvent.settle k (.rejected msg))).filter (isSettleOf id)).length =
      l.count id := by
  induction l with
  | nil => simp
  | cons k rest ih =>
    by_cases h : k = id <;> simp [isSettleOf, h, ih, List.count_cons]

/-- C5: when the upstream WebSocket closes after authentication, the close
handler emits the close event followed by one connection-closed rejection
per pending command in table order, each pending command is settled exactly
once, and the pending table is left empty. -/
theorem c5_close_rejects_pending (s : RconWebSocket) (code : Int)
    (hauth : s.authenticated = true) (hnd : s.pending.Nodup) :
    wsCloseHandler s code =
      (⟨false, false, []⟩,
        WEvent.closeEv :: s.pending.map
          (fun id => .settle id (.rejected ("Connection closed".toList))))
    ∧ (∀ id ∈ s.pending,
      ((wsCloseHandler s code).2.filter (isSettleOf id)).length = 1) := by
  constructor
  · simp [wsCloseHandler, hauth]
  · intro id hid
    simp only [wsCloseHandler, hauth]
    simp only [Bool.true_eq_false, if_false, List.cons_append, List.nil_append]
    rw [List.filter_cons_of_neg (by simp [isSettleOf])]
    rw [settle_count]
    exact List.count_eq_one_of_mem hnd hid

/-- Witness for C5: a close with two pending commands (ids 4 and 6) rejects
both, each exactly once, and leaves the table empty. -/
theorem c5_close_rejects_pending_witness :
    wsCloseHandler ⟨true, true, [4, 6]⟩ 1006 =
      (⟨false, false, []⟩,
        WEvent.closeEv :: ([4, 6] : List Int).map
          (fun id => .settle id (.rejected ("Connection closed".toList))))
    ∧ ((wsCloseHandler ⟨true, true, [4, 6]⟩ 1006).2.filter (isSettleOf 4)).length = 1
    ∧ ((wsCloseHandler ⟨true, true, [4, 6]⟩ 1006).2.filter (isSettleOf 6)).length = 1 := by
  have h := c5_close_rejects_pending ⟨true, true, [4, 6]⟩ 1006 rfl (by decide)
  exact ⟨h.1, h.2 4 (by decide), h.2 6 (by decide)⟩

/-- C10: `destroy()` clears the pending table while settling nothing, the
per-command timeout callback settles only a command still present in the
table, and consequently a command pending at the moment of `destroy()` is
never settled afterwards: on the destroyed state the timeout callback, the
message handler and the close handler all settle nothing. -/
theorem c10_destroy_never_settles (s : RconWebSocket) (id : Int) (m : WMsg)
    (code : Int) :
    wsDestroy s = (⟨false, false, []⟩, [])
    ∧ (∀ (s2 : RconWebSocket) (i2 : Int), idHas i2 s2.pending = false →
        wsExecTimeout s2 i2 = (s2, none))
    ∧ (wsExecTimeout (wsDestroy s).1 id).2 = none
    ∧ ((handleMessage (wsDestroy s).1 m).2.filter isSettleEv).length = 0
    ∧ ((wsCloseHandler (wsDestroy s).1 code).2.filter isSettleEv).length = 0 := by
  refine ⟨rfl, fun s2 i2 hno => ?_, ?_, ?_, ?_⟩
  · simp [wsExecTimeout, hno]
  · simp [wsDestroy, wsExecTimeout, idHas]
  · by_cases hz : m.Identifier = -1 ∨ m.Identifier = 0 <;>
      simp [wsDestroy, handleMessage, idHas, hz, isSettleEv]
  · simp [wsDestroy, wsCloseHandler, isSettleEv]

/-- Witness for C10: the timeout callback for id 5 settles nothing on a
state whose pending table does not contain 5. -/
theorem c10_destroy_never_settles_witness :
    wsDestroy ⟨true, true, [5]⟩ = (⟨false, false, []⟩, [])
    ∧ wsExecTimeout ⟨false, false, [7]⟩ 5 = (⟨false, false, [7]⟩, none)
    ∧ (wsExecTimeout (wsDestroy ⟨true, true, [5]⟩).1 5).2 = none :=
  have h := c10_destroy_never_settles ⟨true, true, [5]⟩ 5 ⟨5, none, none⟩ 1000
  ⟨h.1, h.2.1 ⟨false, false, [7]⟩ 5 (by decide), h.2.2.1⟩

/-! ### Session bridge (the `ws.on(message)` handler in `lib/bridge.js`)

The handler's decision logic is modelled as a pure function from the
configuration, the session state and the parsed browser message to the
reply it sends, the action it takes (start an upstream auth, call `exec`,
or nothing) and whether it closes the browser socket.  Replies are the
formatter calls the handler makes; the asynchronous continuations (auth
outcome, exec response) happen after the decision and are represented by
the returned action. -/

inductive AuthMode where
  | server
  | client
  deriving DecidableEq, Repr

inductive Protocol where
  | source
  | rust
  deriving DecidableEq, Repr

/-- The nested `data.auth` payload. -/
structure AuthPayload where
  host : Option (List Char)
  port : Option (List Char)
  password : Option (List Char)
  deriving DecidableEq, Repr

/-- A parsed browser JSON message: the fields the handler inspects
(`data.auth`, the flat aliases and `data.command`). -/
structure BridgeData where
  auth : Option AuthPayload
  flatHost : Option (List Char)
  flatPort : Option (List Char)
  flatPassword : Option (List Char)
  command : Option (List Char)
  deriving DecidableEq, Repr

/-- A raw browser message: either text that fails `JSON.parse` or a parsed
JSON object. -/
inductive BrowserMsg where
  | notJson
  | json (d : BridgeData)
  deriving DecidableEq, Repr

/-- Bridge options consumed by the message handler.  `port` is kept as the
decimal string interpolated into messages; `onCommandSet` states whether an
`onCommand` hook was configured, and the hook blocks only when it returns
exactly `false` (`allowed === false`), modelled as `some false`. -/
structure BridgeCfg where
  protocol : Protocol
  authMode : AuthMode
  host : Option (List Char)
  password : Option (List Char)
  port : List Char
  onCommandSet : Bool
  onCommand : List Char → Option Bool

/-- Per-session mutable state read by the handler: `authenticated`, whether
`rcon` is non-null, and `rcon.connected`. -/
structure SessionState where
  authenticated : Bool
  hasRcon : Bool
  rconConnected : Bool
  deriving DecidableEq, Repr

/-- The formatter calls the handler can make synchronously. -/
inductive FmtCall where
  | errorF (msg : List Char)
  | authF (ok : Bool) (msg : List Char)
  deriving DecidableEq, Repr

/-- The action the handler takes after its synchronous replies. -/
inductive BridgeAction where
  | noAction
  | startAuth (host port password : List Char)
  | execCmd (c : List Char)
  deriving DecidableEq, Repr

/-- The observable outcome of one browser message. -/
structure HandlerOut where
  reply : Option FmtCall
  action : BridgeAction
  closesBrowser : Bool
  deriving DecidableEq, Repr

/-- JS `String.prototype.trim` whitespace (the ASCII part). -/
def jsWhitespace (c : Char) : Bool :=
  c == ' ' || c == '\t' || c == '\n' || c == '\r' || c == '\x0b' || c == '\x0c'

def jsTrim (l : List Char) : List Char :=
  ((l.dropWhile jsWhitespace).reverse.dropWhile jsWhitespace).reverse

/-- JS `a || b` where both operands are optional strings. -/
def jsOrOpt (o fallback : Option (List Char)) : Option (List Char) :=
  match o with
  | none => fallback
  | some s => if s = [] then fallback else some s

/-- JS truthiness of an optional string (`!x` is true for missing or empty). -/
def jsTruthy (o : Option (List Char)) : Bool :=
  match o with
  | none => false
  | some s => if s = [] then false else true

/-- The protocol default port, as its decimal string. -/
def defaultPortStr (p : Protocol) : List Char :=
  if p = .rust then "28016".toList else "27015".toList

/-- The instructional reply sent for a non-auth message in client mode
before authentication. -/
def notAuthMsg (p : Protocol) : List Char :=
  ("Not authenticated. Send \x7b\"auth\": \x7b\"host\": \"...\", \"port\": ".toList) ++
    defaultPortStr p ++ (", \"password\": \"...\"\x7d\x7d first.".toList)

/-- Normalization of flat form keys `auth.host`, `auth.port`,
`auth.password` into the nested `data.auth` shape. -/
def normalizeAuth (d : BridgeData) : BridgeData :=
  if d.auth = none ∧ (d.flatHost ≠ none ∨ d.flatPassword ≠ none) then
    { d with auth := some ⟨d.flatHost, d.flatPort, d.flatPassword⟩ }
  else d

/-- The browser-message handler of `createBridge` in `lib/bridge.js`. -/
def handleBrowserMessage (cfg : BridgeCfg) (st : SessionState) (raw : BrowserMsg) :
    HandlerOut :=
  match raw with
  | .notJson => ⟨some (.errorF ("Invalid message format.".toList)), .noAction, false⟩
  | .json d0 =>
    let d := normalizeAuth d0
    if cfg.authMode = .client ∧ st.authenticated = false then
      match d.auth with
      | some a =>
        let authHost := jsOrOpt a.host cfg.host
        let authPass := jsOrOpt a.password cfg.password
        if jsTruthy authHost = false ∨ jsTruthy authPass = false then
          ⟨some (.authF false ("Missing host or password.".toList)), .noAction, false⟩
        else
          ⟨none, .startAuth (authHost.getD []) (jsOr a.port cfg.port) (authPass.getD []),
            false⟩
      | none => ⟨some (.errorF (notAuthMsg cfg.protocol)), .noAction, false⟩
    else
      let command := jsTrim (jsOr d.command [])
      if command = [] then
        ⟨some (.errorF ("Empty command.".toList)), .noAction, false⟩
      else if cfg.onCommandSet = true ∧ cfg.onCommand command = some false then
        ⟨some (.errorF (("Command blocked: ".toList) ++ command)), .noAction, false⟩
      else if st.authenticated = false ∨ st.hasRcon = false ∨ st.rconConnected = false then
        ⟨some (.errorF ("Not connected to RCON server.".toList)), .noAction, false⟩
      else ⟨none, .execCmd command, false⟩

theorem normalizeAuth_command (d : BridgeData) : (normalizeAuth d).command = d.command := by
  unfold normalizeAuth
  split <;> rfl

/-- C7 counterexample: in the default server auth mode, an authenticated
session receiving a JSON object of unknown shape (no auth and no command
field) is answered with the "Empty command." error fragment, not with the
"Invalid message format." fragment the claim requires. -/
theorem c7_counterexample :
    handleBrowserMessage
        ⟨.source, .server, some ("h".toList), some ("p".toList), "27015".toList,
          false, fun _ => none⟩
        ⟨true, true, true⟩ (.json ⟨none, none, none, none, none⟩) =
      ⟨some (.errorF ("Empty command.".toList)), .noAction, false⟩
    ∧ ("Empty command.".toList : List Char) ≠ ("Invalid message format.".toList) := by
  exact ⟨by decide, by decide⟩

/-- C7 amended: non-JSON browser text is answered with the
"Invalid message format." error fragment; a JSON object of unknown shape is
not: once past auth handling it falls through to command extraction and is
answered with the "Empty command." error fragment (or, in client mode
before authentication, with the instructional not-authenticated fragment).
In every case the handler replies with an error fragment, takes no action
and leaves the browser connection open. -/
theorem c7_unknown_shape_replies (cfg : BridgeCfg) (st : SessionState) (d : BridgeData)
    (hshape : d.auth = none ∧ d.command = none ∧ d.flatHost = none ∧ d.flatPassword = none) :
    handleBrowserMessage cfg st .notJson =
      ⟨some (.errorF ("Invalid message format.".toList)), .noAction, false⟩
    ∧ (¬(cfg.authMode = .client ∧ st.authenticated = false) →
      handleBrowserMessage cfg st (.json d) =
        ⟨some (.errorF ("Empty command.".toList)), .noAction, false⟩)
    ∧ ((cfg.authMode = .client ∧ st.authenticated = false) →
      handleBrowserMessage cfg st (.json d) =
        ⟨some (.errorF (notAuthMsg cfg.protocol)), .noAction, false⟩) := by
  obtain ⟨ha, hc, hfh, hfp⟩ := hshape
  have hnorm : normalizeAuth d = d := by
    unfold normalizeAuth
    rw [if_neg]
    simp [ha, hfh, hfp]
  refine ⟨rfl, fun hmode => ?_, fun hmode => ?_⟩
  · simp only [handleBrowserMessage, hnorm]
    rw [if_neg hmode, hc]
    rfl
  · simp only [handleBrowserMessage, hnorm]
    rw [if_pos hmode, ha]

/-- Witness for C7 at concrete inputs: an authenticated server-mode session
and an unauthenticated client-mode session each receiving the unknown-shape
object `\x7b\x7d`, plus non-JSON input. -/
theorem c7_unknown_shape_replies_witness :
    handleBrowserMessage
        ⟨.source, .server, some ("h".toList), some ("p".toList), "27015".toList,
          false, fun _ => none⟩
        ⟨true, true, true⟩ .notJson =
      ⟨some (.errorF ("Invalid message format.".toList)), .noAction, false⟩
    ∧ handleBrowserMessage
        ⟨.source, .server, some ("h".toList), some ("p".toList), "27015".toList,
          false, fun _ => none⟩
        ⟨true, true, true⟩ (.json ⟨none, none, none, none, none⟩) =
      ⟨some (.errorF ("Empty command.".toList)), .noAction, false⟩
    ∧ handleBrowserMessage
        ⟨.rust, .client, none, none, "28016".toList, false, fun _ => none⟩
        ⟨false, false, false⟩ (.json ⟨none, none, none, none, none⟩) =
      ⟨some (.errorF (notAuthMsg .rust)), .noAction, false⟩ := by
  have h1 := c7_unknown_shape_replies
    ⟨.source, .server, some ("h".toList), some ("p".toList), "27015".toList,
      false, fun _ => none⟩
    ⟨true, true, true⟩ ⟨none, none, none, none, none⟩ ⟨rfl, rfl, rfl, rfl⟩
  have h2 := c7_unknown_shape_replies
    ⟨.rust, .client, none, none, "28016".toList, false, fun _ => none⟩
    ⟨false, false, false⟩ ⟨none, none, none, none, none⟩ ⟨rfl, rfl, rfl, rfl⟩
  exact ⟨h1.1, h1.2.1 (by simp), h2.2.2 (by simp)⟩

/-- C8: when an `onCommand` filter is configured and returns `false` for the
trimmed (nonempty) command of a processed command message, the handler
replies with the "Command blocked: …" error fragment and takes no action —
in particular it never calls `exec` for that command, and since `response`
fragments are only produced from `exec` results, no response fragment is
ever emitted for it.  The veto is checked before the connectivity check, so
this holds in every session state. -/
theorem c8_on_command_veto (cfg : BridgeCfg) (st : SessionState) (d : BridgeData)
    (hmode : ¬(cfg.authMode = .client ∧ st.authenticated = false))
    (hset : cfg.onCommandSet = true)
    (hne : jsTrim (jsOr d.command []) ≠ [])
    (hblock : cfg.onCommand (jsTrim (jsOr d.command [])) = some false) :
    handleBrowserMessage cfg st (.json d) =
      ⟨some (.errorF (("Command blocked: ".toList) ++ jsTrim (jsOr d.command []))),
        .noAction, false⟩ := by
  simp only [handleBrowserMessage, normalizeAuth_command]
  rw [if_neg hmode, if_neg hne, if_pos ⟨hset, hblock⟩]

/-- Witness for C8: a hook that blocks everything, receiving the command
"quit" in an authenticated server-mode session. -/
theorem c8_on_command_veto_witness :
    handleBrowserMessage
        ⟨.source, .server, some ("h".toList), some ("p".toList), "27015".toList,
          true, fun _ => some false⟩
        ⟨true, true, true⟩ (.json ⟨none, none, none, none, some ("quit".toList)⟩) =
      ⟨some (.errorF (("Command blocked: ".toList) ++
        jsTrim (jsOr (some ("quit".toList)) []))), .noAction, false⟩ :=
  c8_on_command_veto
    ⟨.source, .server, some ("h".toList), some ("p".toList), "27015".toList,
      true, fun _ => some false⟩
    ⟨true, true, true⟩ ⟨none, none, none, none, some ("quit".toList)⟩
    (by simp) (rfl) (by decide) (rfl)

/-! ### Default HTML formatter (`lib/formatter.js`)

`escapeHtml` is a chain of four global single-character `String.replace`
calls; each is modelled as a per-character expansion over the character
list, in source order (`&` first, so the entities introduced later are not
re-escaped). -/

/-- One global single-character `String.replace(/t/g, r)`. -/
def replaceAll (t : Char) (r : List Char) : List Char → List Char
  | [] => []
  | c :: cs => (if c = t then r else [c]) ++ replaceAll t r cs

/-- `escapeHtml` from `lib/formatter.js`. -/
def escapeHtml (l : List Char) : List Char :=
  replaceAll '"' ("&quot;".toList)
    (replaceAll '>' ("&gt;".toList)
      (replaceAll '<' ("&lt;".toList)
        (replaceAll '&' ("&amp;".toList) l)))

/-- The per-character view of the chained replaces. -/
def escChar (c : Char) : List Char :=
  if c = '&' then "&amp;".toList
  else if c = '<' then "&lt;".toList
  else if c = '>' then "&gt;".toList
  else if c = '"' then "&quot;".toList
  else [c]

theorem replaceAll_append (t : Char) (r : List Char) (a b : List Char) :
    replaceAll t r (a ++ b) = replaceAll t r a ++ replaceAll t r b := by
  induction a with
  | nil => rfl
  | cons c cs ih => simp [replaceAll, ih, List.append_assoc]

theorem replaceAll_single (t : Char) (r : List Char) (c : Char) (h : ¬c = t) :
    replaceAll t r [c] = [c] := by
  simp [replaceAll, h]

theorem escapeHtml_cons (c : Char) (cs : List Char) :
    escapeHtml (c :: cs) = escChar c ++ escapeHtml cs := by
  have st1 : replaceAll '&' ("&amp;".toList) (c :: cs) =
      (if c = '&' then "&amp;".toList else [c]) ++ replaceAll '&' ("&amp;".toList) cs := rfl
  simp only [escapeHtml, st1, replaceAll_append]
  by_cases h1 : c = '&'
  · subst h1
    rw [if_pos rfl,
      show replaceAll '<' ("&lt;".toList) ("&amp;".toList) = "&amp;".toList from by decide,
      show replaceAll '>' ("&gt;".toList) ("&amp;".toList) = "&amp;".toList from by decide,
      show replaceAll '"' ("&quot;".toList) ("&amp;".toList) = "&amp;".toList from by decide]
    rfl
  · rw [if_neg h1]
    by_cases h2 : c = '<'
    · subst h2
      rw [show replaceAll '<' ("&lt;".toList) ['<'] = "&lt;".toList from by decide,
        show replaceAll '>' ("&gt;".toList) ("&lt;".toList) = "&lt;".toList from by decide,
        show replaceAll '"' ("&quot;".toList) ("&lt;".toList) = "&lt;".toList from by decide]
      simp [escChar, h1]
    · rw [replaceAll_single '<' _ c h2]
      by_cases h3 : c = '>'
      · subst h3
        rw [show replaceAll '>' ("&gt;".toList) ['>'] = "&gt;".toList from by decide,
          show replaceAll '"' ("&quot;".toList) ("&gt;".toList) = "&gt;".toList from by decide]
        simp [escChar, h1, h2]
      · rw [replaceAll_single '>' _ c h3]
        by_cases h4 : c = '"'
        · subst h4
          rw [show replaceAll '"' ("&quot;".toList) ['"'] = "&quot;".toList from by decide]
          simp [escChar, h1, h2, h3]
        · rw [replaceAll_single '"' _ c h4]
          simp [escChar, h1, h2, h3, h4]

/-- No unescaped angle bracket or double quote. -/
def noBadChars (l : List Char) : Bool :=
  l.all (fun c => !(c == '<' || c == '>' || c == '"'))

def lePrefixChars : List Char → List Char → Bool
  | [], _ => true
  | _ :: _, [] => false
  | a :: as, b :: bs => a == b && lePrefixChars as bs

/-- The tail after an ampersand starts one of the four entities. -/
def entityAt (cs : List Char) : Bool :=
  lePrefixChars ("amp;".toList) cs || lePrefixChars ("lt;".toList) cs ||
    lePrefixChars ("gt;".toList) cs || lePrefixChars ("quot;".toList) cs

/-- Every ampersand begins one of the entities amp, lt, gt or quot. -/
def ampEntitiesOk : List Char → Bool
  | [] => true
  | c :: cs => (!(c == '&') || entityAt cs) && ampEntitiesOk cs

theorem lePrefixChars_append (a b : List Char) : lePrefixChars a (a ++ b) = true := by
  induction a with
  | nil => rfl
  | cons c cs ih => simp [lePrefixChars, ih]

theorem ampOk_cons_nonamp (c : Char) (cs : List Char) (h : (c == '&') = false) :
    ampEntitiesOk (c :: cs) = ampEntitiesOk cs := by
  simp [ampEntitiesOk, h]

theorem noBadChars_escChar (c : Char) : noBadChars (escChar c) = true := by
  by_cases h1 : c = '&'
  · subst h1; decide
  · by_cases h2 : c = '<'
    · subst h2; decide
    · by_cases h3 : c = '>'
      · subst h3; decide
      · by_cases h4 : c = '"'
        · subst h4; decide
        · simp [escChar, h1, h2, h3, h4, noBadChars]

theorem ampOk_escChar_append (c : Char) (rest : List Char)
    (h : ampEntitiesOk rest = true) : ampEntitiesOk (escChar c ++ rest) = true := by
  by_cases h1 : c = '&'
  · subst h1
    have e1 : entityAt ("amp;".toList ++ rest) = true := by
      unfold entityAt
      rw [lePrefixChars_append]
      simp
    have tail : ampEntitiesOk ("amp;".toList ++ rest) = true := by
      rw [show ("amp;".toList ++ rest) = 'a' :: 'm' :: 'p' :: ';' :: rest from rfl,
        ampOk_cons_nonamp 'a' _ (by decide), ampOk_cons_nonamp 'm' _ (by decide),
        ampOk_cons_nonamp 'p' _ (by decide), ampOk_cons_nonamp ';' _ (by decide), h]
    show ampEntitiesOk ('&' :: ("amp;".toList ++ rest)) = true
    rw [show ampEntitiesOk ('&' :: ("amp;".toList ++ rest)) =
      ((!('&' == '&') || entityAt ("amp;".toList ++ rest)) &&
        ampEntitiesOk ("amp;".toList ++ rest)) from rfl, e1, tail]
    rfl
  · by_cases h2 : c = '<'
    · subst h2
      have e1 : entityAt ("lt;".toList ++ rest) = true := by
        unfold entityAt
        rw [lePrefixChars_append]
        simp
      have tail : ampEntitiesOk ("lt;".toList ++ rest) = true := by
        rw [show ("lt;".toList ++ rest) = 'l' :: 't' :: ';' :: rest from rfl,
          ampOk_cons_nonamp 'l' _ (by decide), ampOk_cons_nonamp 't' _ (by decide),
          ampOk_cons_nonamp ';' _ (by decide), h]
      show ampEntitiesOk ('&' :: ("lt;".toList ++ rest)) = true
      rw [show ampEntitiesOk ('&' :: ("lt;".toList ++ rest)) =
        ((!('&' == '&') || entityAt ("lt;".toList ++ rest)) &&
          ampEntitiesOk ("lt;".toList ++ rest)) from rfl, e1, tail]
      rfl
    · by_cases h3 : c = '>'
      · subst h3
        have e1 : entityAt ("gt;".toList ++ rest) = true := by
          unfold entityAt
          rw [lePrefixChars_append]
          simp
        have tail : ampEntitiesOk ("gt;".toList ++ rest) = true := by
          rw [show ("gt;".toList ++ rest) = 'g' :: 't' :: ';' :: rest from rfl,
            ampOk_cons_nonamp 'g' _ (by decide), ampOk_cons_nonamp 't' _ (by decide),
            ampOk_cons_nonamp ';' _ (by decide), h]
        show ampEntitiesOk ('&' :: ("gt;".toList ++ rest)) = true
        rw [show ampEntitiesOk ('&' :: ("gt;".toList ++ rest)) =
          ((!('&' == '&') || entityAt ("gt;".toList ++ rest)) &&
            ampEntitiesOk ("gt;".toList ++ rest)) from rfl, e1, tail]
        rfl
      · by_cases h4 : c = '"'
        · subst h4
          have e1 : entityAt ("quot;".toList ++ rest) = true := by
            unfold entityAt
            rw [lePrefixChars_append]
            simp
          have tail : ampEntitiesOk ("quot;".toList ++ rest) = true := by
            rw [show ("quot;".toList ++ rest) = 'q' :: 'u' :: 'o' :: 't' :: ';' :: rest from
              rfl, ampOk_cons_nonamp 'q' _ (by decide), ampOk_cons_nonamp 'u' _ (by decide),
              ampOk_cons_nonamp 'o' _ (by decide), ampOk_cons_nonamp 't' _ (by decide),
              ampOk_cons_nonamp ';' _ (by decide), h]
          show ampEntitiesOk ('&' :: ("quot;".toList ++ rest)) = true
          rw [show ampEntitiesOk ('&' :: ("quot;".toList ++ rest)) =
            ((!('&' == '&') || entityAt ("quot;".toList ++ rest)) &&
              ampEntitiesOk ("quot;".toList ++ rest)) from rfl, e1, tail]
          rfl
        · rw [show escChar c = [c] from by simp [escChar, h1, h2, h3, h4],
            List.singleton_append, ampOk_cons_nonamp c _ (by simp [h1]), h]

theorem escapeHtml_noBadChars (l : List Char) : noBadChars (escapeHtml l) = true := by
  induction l with
  | nil => rfl
  | cons c cs ih =>
    rw [escapeHtml_cons]
    unfold noBadChars
    rw [List.all_append]
    have h1 := noBadChars_escChar c
    unfold noBadChars at h1 ih
    rw [h1, ih]
    rfl

theorem escapeHtml_ampEntitiesOk (l : List Char) : ampEntitiesOk (escapeHtml l) = true := by
  induction l with
  | nil => rfl
  | cons c cs ih =>
    rw [escapeHtml_cons]
    exact ampOk_escChar_append c _ ih

/-- `wrap(innerHTML)` from `createFormatter` (default formatter, with its
`targetId` and `swapStyle` options). -/
def wrap (targetId swapStyle inner : List Char) : List Char :=
  ("<div id=\"".toList) ++ targetId ++ ("\" hx-swap-oob=\"".toList) ++ swapStyle ++
    ("\">".toList) ++ inner ++ ("</div>".toList)

/-- JS `String.prototype.split` on a newline. -/
def splitNl : List Char → List (List Char)
  | [] => [[]]
  | c :: cs =>
    if c = '\n' then [] :: splitNl cs
    else
      match splitNl cs with
      | [] => [[c]]
      | h :: t => (c :: h) :: t

/-- `response(text, command)` from `lib/formatter.js` (default path; the
impure timestamp is passed explicitly). -/
def fmtResponse (targetId swapStyle text command time : List Char) : List Char :=
  let lines := (splitNl text).filter (fun l => !l.isEmpty)
  let formatted := (lines.map (fun line =>
    ("<span class=\"rcon-line\">".toList) ++ escapeHtml line ++ ("</span>".toList))).flatten
  wrap targetId swapStyle
    (("<div class=\"rcon-response\"><div class=\"rcon-meta\"><span class=\"rcon-cmd\">&gt; ".toList) ++
      escapeHtml command ++ ("</span><span class=\"rcon-time\">".toList) ++ time ++
      ("</span></div><div class=\"rcon-body\">".toList) ++
      (if formatted.isEmpty then ("<span class=\"rcon-empty\">(no output)</span>".toList)
        else formatted) ++
      ("</div></div>".toList))

/-- `error(message)` from `lib/formatter.js` (default path). -/
def fmtError (targetId swapStyle message : List Char) : List Char :=
  wrap targetId swapStyle
    (("<div class=\"rcon-error\"><span class=\"rcon-error-icon\">!</span> ".toList) ++
      escapeHtml message ++ ("</div>".toList))

/-- `info(message)` from `lib/formatter.js` (default path). -/
def fmtInfo (targetId swapStyle message : List Char) : List Char :=
  wrap targetId swapStyle
    (("<div class=\"rcon-info\">".toList) ++ escapeHtml message ++ ("</div>".toList))

/-- JS `toLowerCase` (ASCII). -/
def lowerL (l : List Char) : List Char := l.map Char.toLower

/-- `serverMessage(text, type)` from `lib/formatter.js` (default path). -/
def fmtServerMessage (targetId swapStyle text ty time : List Char) : List Char :=
  let typeClass :=
    if lowerL ty = ("warning".toList) then ("rcon-warn".toList)
    else if lowerL ty = ("error".toList) then ("rcon-error".toList)
    else ("rcon-server".toList)
  wrap targetId swapStyle
    (("<div class=\"".toList) ++ typeClass ++ ("\"><span class=\"rcon-time\">".toList) ++
      time ++ ("</span> ".toList) ++ escapeHtml text ++ ("</div>".toList))

/-- The response body assembled from already-escaped lines. -/
def responseBody (escLines : List (List Char)) : List Char :=
  let formatted := (escLines.map (fun e =>
    ("<span class=\"rcon-line\">".toList) ++ e ++ ("</span>".toList))).flatten
  if formatted.isEmpty then ("<span class=\"rcon-empty\">(no output)</span>".toList)
  else formatted

/-- C9: the default formatter's `escapeHtml` output contains no left or
right angle bracket and no double quote, and every ampersand in its output
begins one of the entities amp, lt, gt or quot; consequently each
caller-supplied text reaches the response, error, info and serverMessage
fragments only through `escapeHtml` (the factorisation equations below
exhibit each fragment as a fixed template around the escaped caller
strings). -/
theorem c9_escape_html_fragments :
    (∀ s : List Char, noBadChars (escapeHtml s) = true ∧ ampEntitiesOk (escapeHtml s) = true)
    ∧ (∀ tid ss m, fmtError tid ss m = wrap tid ss
        (("<div class=\"rcon-error\"><span class=\"rcon-error-icon\">!</span> ".toList) ++
          escapeHtml m ++ ("</div>".toList)))
    ∧ (∀ tid ss m, fmtInfo tid ss m = wrap tid ss
        (("<div class=\"rcon-info\">".toList) ++ escapeHtml m ++ ("</div>".toList)))
    ∧ (∀ tid ss t ty time, fmtServerMessage tid ss t ty time = wrap tid ss
        (("<div class=\"".toList) ++
          (if lowerL ty = ("warning".toList) then ("rcon-warn".toList)
            else if lowerL ty = ("error".toList) then ("rcon-error".toList)
            else ("rcon-server".toList)) ++
          ("\"><span class=\"rcon-time\">".toList) ++ time ++ ("</span> ".toList) ++
          escapeHtml t ++ ("</div>".toList)))
    ∧ (∀ tid ss text cmd time, fmtResponse tid ss text cmd time = wrap tid ss
        (("<div class=\"rcon-response\"><div class=\"rcon-meta\"><span class=\"rcon-cmd\">&gt; ".toList) ++
          escapeHtml cmd ++ ("</span><span class=\"rcon-time\">".toList) ++ time ++
          ("</span></div><div class=\"rcon-body\">".toList) ++
          responseBody (((splitNl text).filter (fun l => !l.isEmpty)).map escapeHtml) ++
          ("</div></div>".toList))) := by
  refine ⟨fun s => ⟨escapeHtml_noBadChars s, escapeHtml_ampEntitiesOk s⟩,
    fun tid ss m => rfl, fun tid ss m => rfl, fun tid ss t ty time => rfl,
    fun tid ss text cmd time => ?_⟩
  simp only [fmtResponse, responseBody, List.map_map]
  rfl

end HtmxRcon
